import Mathlib

/-!
Verification of the text-comparison evaluation pipeline of the LexiDrom
backend (`app/services/text_comparison_service.py`), as a shallow embedding.

Modelling conventions:
* Python strings are Lean `String`s; `str.lower` is `lowerStr` (ASCII
  case folding), `str.strip` is `pyStrip`, `text.split('\n')` is
  `splitLines`, and `text.split()` is splitting on whitespace with empty
  pieces dropped (`pyWords`).
* The arithmetic of `_simple_comparison` (`int((overlap / total) * 100)`)
  is modelled over the rationals as natural floor division
  `overlap * 100 / total`; IEEE double rounding can truncate one lower
  than the exact floor at some ratios, so only rounding-insensitive
  consequences are asserted of it (see `simpleComparison`).
* Decoded JSON values are modelled by the inductive `Json`; JSON numbers
  are modelled as integers (the pipeline only ever manipulates integral
  scores).  A Python dict built by `json.loads` keeps the last occurrence
  of a duplicated key, hence `dictGet` searches the reversed binding list.
* Exceptions are modelled by `Option`/explicit outcome constructors:
  `jsonDecode` returns `none` where `json.loads` raises, and the outcome
  of the generative-model call is the inductive `Invocation`.
-/

/-- Characters that are written via their code points to keep string
processing explicit: `{`. -/
def lbrace : Char := Char.ofNat 123

/-- The `}` character. -/
def rbrace : Char := Char.ofNat 125

/-- The `"` character. -/
def dquote : Char := Char.ofNat 34

/-- The `\` character. -/
def bslash : Char := Char.ofNat 92

/-- Decoded JSON values (`json.loads` results).  Numbers are modelled as
integers; the service's prompts and parsers only deal in integral scores. -/
inductive Json where
  | null
  | bool (b : Bool)
  | num (n : Int)
  | str (s : String)
  | arr (xs : List Json)
  | obj (kvs : List (String × Json))
deriving Repr

/-- `leadsWith p s` is true when the character list `p` is an initial
segment of `s` (Python `s.startswith(p)` at the list level). -/
def leadsWith : List Char → List Char → Bool
  | [], _ => true
  | _ :: _, [] => false
  | p :: ps, c :: cs => p == c && leadsWith ps cs

/-- Substring containment: `hasSub pat s` is Python's `pat in s`. -/
def hasSub (pat : List Char) : List Char → Bool
  | [] => pat.isEmpty
  | c :: rest => leadsWith pat (c :: rest) || hasSub pat rest

/-- Whitespace as recognized by Python's `str.split()` / `str.strip()`
(space, tab, newline, carriage return, vertical tab, form feed). -/
def isPyWs (c : Char) : Bool :=
  c = ' ' || c = '\t' || c = '\n' || c = '\r' || c = Char.ofNat 11 || c = Char.ofNat 12

/-- `str.lower` (ASCII case folding, which is all the pipeline relies on). -/
def lowerStr (s : String) : String :=
  String.mk (s.data.map Char.toLower)

/-- `str.strip()`: remove leading and trailing whitespace. -/
def pyStrip (s : String) : String :=
  String.mk (((s.data.dropWhile isPyWs).reverse.dropWhile isPyWs).reverse)

/-- `kw in line.lower()` from the fallback parser. -/
def lowerContains (line kw : String) : Bool :=
  hasSub kw.data (lowerStr line).data

/-- JSON insignificant whitespace, as accepted by `json.loads`. -/
def skipWs (cs : List Char) : List Char :=
  cs.dropWhile fun c => c = ' ' || c = '\t' || c = '\n' || c = '\r'

/-- The single-character string escapes of JSON. -/
def escChar (c : Char) : Option Char :=
  if c = dquote then some dquote
  else if c = bslash then some bslash
  else if c = '/' then some '/'
  else if c = 'n' then some '\n'
  else if c = 't' then some '\t'
  else if c = 'r' then some '\r'
  else if c = 'b' then some (Char.ofNat 8)
  else if c = 'f' then some (Char.ofNat 12)
  else none

/-- Parse the body of a JSON string literal (the opening quote already
consumed), returning the decoded content and the remaining input. -/
def parseStrBody : List Char → Option (String × List Char)
  | [] => none
  | c :: rest =>
    if c = dquote then some ("", rest)
    else if c = bslash then
      match rest with
      | [] => none
      | e :: rest2 =>
        match escChar e with
        | none => none
        | some ec =>
          match parseStrBody rest2 with
          | none => none
          | some (s, r) => some (String.mk (ec :: s.data), r)
    else
      match parseStrBody rest with
      | none => none
      | some (s, r) => some (String.mk (c :: s.data), r)

/-- Numeric value of a list of decimal digits. -/
def digitsToNat (ds : List Char) : Nat :=
  ds.foldl (fun a c => a * 10 + (c.toNat - 48)) 0

/-- Parse a run of decimal digits. -/
def parseDigits (cs : List Char) : Option (Nat × List Char) :=
  let ds := cs.takeWhile Char.isDigit
  if ds.isEmpty then none else some (digitsToNat ds, cs.drop ds.length)

/-- Parse a JSON integer (an optional minus sign and digits).  Fractional
or exponent forms are outside the model and make the decode fail. -/
def parseNum (cs : List Char) : Option (Int × List Char) :=
  match cs with
  | [] => none
  | c :: rest =>
    if c = '-' then
      match parseDigits rest with
      | none => none
      | some (n, r) =>
        match r with
        | [] => some (-(n : Int), [])
        | d :: _ => if d = '.' || d = 'e' || d = 'E' then none else some (-(n : Int), r)
    else
      match parseDigits cs with
      | none => none
      | some (n, r) =>
        match r with
        | [] => some ((n : Int), [])
        | d :: _ => if d = '.' || d = 'e' || d = 'E' then none else some ((n : Int), r)

mutual

/-- Fueled recursive-descent JSON value parser. -/
def parseVal : Nat → List Char → Option (Json × List Char)
  | 0, _ => none
  | Nat.succ fuel, cs0 =>
    let cs := skipWs cs0
    match cs with
    | [] => none
    | c :: rest =>
      if c = lbrace then
        match skipWs rest with
        | [] => none
        | x :: xs =>
          if x = rbrace then some (Json.obj [], xs)
          else
            match parseMembers fuel (x :: xs) [] with
            | some (kvs, r) => some (Json.obj kvs, r)
            | none => none
      else if c = '[' then
        match skipWs rest with
        | [] => none
        | x :: xs =>
          if x = ']' then some (Json.arr [], xs)
          else
            match parseItems fuel (x :: xs) [] with
            | some (vs, r) => some (Json.arr vs, r)
            | none => none
      else if c = dquote then
        match parseStrBody rest with
        | some (s, r) => some (Json.str s, r)
        | none => none
      else if c = 't' then
        if leadsWith "rue".data rest then some (Json.bool true, rest.drop 3) else none
      else if c = 'f' then
        if leadsWith "alse".data rest then some (Json.bool false, rest.drop 4) else none
      else if c = 'n' then
        if leadsWith "ull".data rest then some (Json.null, rest.drop 3) else none
      else if c = '-' || c.isDigit then
        match parseNum cs with
        | some (n, r) => some (Json.num n, r)
        | none => none
      else none

/-- Parse the members of a JSON object (positioned at the first key). -/
def parseMembers : Nat → List Char → List (String × Json) → Option (List (String × Json) × List Char)
  | 0, _, _ => none
  | Nat.succ fuel, cs, acc =>
    match skipWs cs with
    | [] => none
    | c :: rest =>
      if c = dquote then
        match parseStrBody rest with
        | none => none
        | some (k, r1) =>
          match skipWs r1 with
          | [] => none
          | c2 :: r2 =>
            if c2 = ':' then
              match parseVal fuel r2 with
              | none => none
              | some (v, r3) =>
                match skipWs r3 with
                | [] => none
                | c3 :: r4 =>
                  if c3 = ',' then parseMembers fuel r4 (acc ++ [(k, v)])
                  else if c3 = rbrace then some (acc ++ [(k, v)], r4)
                  else none
            else none
      else none

/-- Parse the items of a JSON array (positioned at the first item). -/
def parseItems : Nat → List Char → List Json → Option (List Json × List Char)
  | 0, _, _ => none
  | Nat.succ fuel, cs, acc =>
    match parseVal fuel cs with
    | none => none
    | some (v, r1) =>
      match skipWs r1 with
      | [] => none
      | c :: r2 =>
        if c = ',' then parseItems fuel r2 (acc ++ [v])
        else if c = ']' then some (acc ++ [v], r2)
        else none

end

/-- `json.loads`: decode a complete JSON document, rejecting trailing
garbage; `none` models a raised `JSONDecodeError`. -/
def jsonDecode (s : String) : Option Json :=
  match parseVal (s.length + 1) s.data with
  | some (j, rest) => if (skipWs rest).isEmpty then some j else none
  | none => none

/-- Split a character list at every occurrence of one separator,
keeping empty pieces — Python's `text.split('\n')` shape. -/
def splitOnChar (sep : Char) : List Char → List (List Char)
  | [] => [[]]
  | c :: rest =>
    let r := splitOnChar sep rest
    if c = sep then [] :: r
    else
      match r with
      | h :: t => (c :: h) :: t
      | [] => [[c]]

/-- `text.split('\n')` on strings. -/
def splitLines (s : String) : List String :=
  (splitOnChar '\n' s.data).map String.mk

/-- Split at every character satisfying `p`, keeping empty pieces. -/
def splitOnPred (p : Char → Bool) : List Char → List (List Char)
  | [] => [[]]
  | c :: rest =>
    let r := splitOnPred p rest
    if p c then [] :: r
    else
      match r with
      | h :: t => (c :: h) :: t
      | [] => [[c]]

/-- `text.lower().split()`: lowercase, whitespace-delimited words with
empty pieces dropped. -/
def pyWords (s : String) : List String :=
  ((splitOnPred isPyWs (lowerStr s).data).map String.mk).filter (fun w => w ≠ "")

/-- `set(text.lower().split())`: the word set, duplicates collapsed. -/
def wordSet (s : String) : Finset String :=
  (pyWords s).toFinset

/-- The result tuple `(accuracy_score, correct_points, missed_points,
wrong_points)` as produced by the typed tiers (`_fallback_parsing` and
`_simple_comparison`), where the score is an integer and the three
point lists are string lists. -/
structure EvalTuple where
  accuracy_score : Nat
  correct_points : List String
  missed_points : List String
  wrong_points : List String
deriving Repr, DecidableEq

/-- The result tuple as produced by `_parse_comparison_response`, whose
structured branch returns the decoded JSON values unchecked: each slot
holds whatever dynamic value Python would hold there. -/
structure ParsedResponse where
  accuracy_score : Json
  correct_points : Json
  missed_points : Json
  wrong_points : Json
deriving Repr

/-- Injection of a typed tier result into the dynamic result shape. -/
def EvalTuple.toParsed (t : EvalTuple) : ParsedResponse :=
  ⟨Json.num (t.accuracy_score : Int),
   Json.arr (t.correct_points.map Json.str),
   Json.arr (t.missed_points.map Json.str),
   Json.arr (t.wrong_points.map Json.str)⟩

/-- `dict.get(key, default)` on a dict built by `json.loads`, where a
duplicated key keeps its last occurrence. -/
def dictGet (kvs : List (String × Json)) (k : String) : Option Json :=
  (kvs.reverse.find? (fun p => p.1 == k)).map Prod.snd

/-- Lines 140–145 of `_parse_comparison_response`: read the four fields
out of the decoded object with `data.get(...)` defaults. -/
def parseData (kvs : List (String × Json)) : ParsedResponse :=
  ⟨(dictGet kvs "accuracy_score").getD (Json.num 0),
   (dictGet kvs "correct_points").getD (Json.arr []),
   (dictGet kvs "missed_points").getD (Json.arr []),
   (dictGet kvs "wrong_points").getD (Json.arr [])⟩

/-- The regex match `re.search(r'\{.*\}', text, re.DOTALL)`: the span
from the first opening brace to the last closing brace after it. -/
def findSpan (s : String) : Option String :=
  let cs := s.data
  match cs.findIdx? (fun c => c = lbrace), cs.reverse.findIdx? (fun c => c = rbrace) with
  | some i, some k =>
    let j := cs.length - 1 - k
    if i < j then some (String.mk ((cs.drop i).take (j - i + 1))) else none
  | _, _ => none

/-- The three section states of the heuristic fallback scan. -/
inductive Sec where
  | correct
  | missed
  | wrong
deriving Repr, DecidableEq

/-- State threaded through the fallback line scan: the current section
and the three point lists accumulated so far. -/
structure ScanState where
  current_section : Option Sec
  correct_points : List String
  missed_points : List String
  wrong_points : List String
deriving Repr, DecidableEq

/-- `line.startswith('-') or line.startswith('•') or line.startswith('*')`. -/
def bulletStart (l : String) : Bool :=
  match l.data with
  | [] => false
  | c :: _ => c = '-' || c = '•' || c = '*'

/-- One iteration of the `for line in lines` loop of `_fallback_parsing`
(lines 174–193): strip the line, skip it if empty, switch the section on
keyword-containing lines, and otherwise append bullet points to the
active section's list. -/
def stepLine (st : ScanState) (line0 : String) : ScanState :=
  let line := pyStrip line0
  if line = "" then st
  else if lowerContains line "correct" || lowerContains line "good" || lowerContains line "accurate" then
    ⟨some Sec.correct, st.correct_points, st.missed_points, st.wrong_points⟩
  else if lowerContains line "missed" || lowerContains line "missing" then
    ⟨some Sec.missed, st.correct_points, st.missed_points, st.wrong_points⟩
  else if lowerContains line "wrong" || lowerContains line "incorrect" || lowerContains line "error" then
    ⟨some Sec.wrong, st.correct_points, st.missed_points, st.wrong_points⟩
  else if bulletStart line then
    let point := pyStrip (String.mk (line.data.drop 1))
    if point ≠ "" then
      match st.current_section with
      | some Sec.correct =>
        ⟨st.current_section, st.correct_points ++ [point], st.missed_points, st.wrong_points⟩
      | some Sec.missed =>
        ⟨st.current_section, st.correct_points, st.missed_points ++ [point], st.wrong_points⟩
      | some Sec.wrong =>
        ⟨st.current_section, st.correct_points, st.missed_points, st.wrong_points ++ [point]⟩
      | none => st
    else st
  else st

/-- Tail of the score regex: `score[:\s]*(\d+)` matched against an
(already lowercased) suffix. -/
def matchScoreTail (cs : List Char) : Option Nat :=
  if leadsWith "score".data cs then
    let r := (cs.drop 5).dropWhile (fun c => c = ':' || isPyWs c)
    let ds := r.takeWhile Char.isDigit
    if ds.isEmpty then none else some (digitsToNat ds)
  else none

/-- The score regex `accuracy[_\s]?score[:\s]*(\d+)` attempted at one
position of the lowercased text (the optional separator is tried
greedily first, as the regex engine does). -/
def matchScoreAt (cs : List Char) : Option Nat :=
  if leadsWith "accuracy".data cs then
    let rest := cs.drop 8
    match rest with
    | [] => none
    | c :: rest2 =>
      if c = '_' || isPyWs c then
        match matchScoreTail rest2 with
        | some n => some n
        | none => matchScoreTail rest
      else matchScoreTail rest
  else none

/-- `re.search` of the score regex: the leftmost match in the text. -/
def searchScore : List Char → Option Nat
  | [] => none
  | c :: rest =>
    match matchScoreAt (c :: rest) with
    | some n => some n
    | none => searchScore rest

/-- `_fallback_parsing` (lines 154–195): seed the score from the regex
(default 50), then scan the lines accumulating bullet points per
section. -/
def fallbackParsing (response_text : String) : EvalTuple :=
  let accuracy_score := (searchScore (lowerStr response_text).data).getD 50
  let final := (splitLines response_text).foldl stepLine ⟨none, [], [], []⟩
  ⟨accuracy_score, final.correct_points, final.missed_points, final.wrong_points⟩

/-- `_parse_comparison_response` (lines 127–152): find a brace span,
decode it, and read the four fields; any failure falls back to
`_fallback_parsing` on the whole raw text. -/
def parseComparisonResponse (response_text : String) : ParsedResponse :=
  match findSpan response_text with
  | some json_str =>
    match jsonDecode json_str with
    | some (Json.obj kvs) => parseData kvs
    | _ => (fallbackParsing response_text).toParsed
  | none => (fallbackParsing response_text).toParsed

/-- `_simple_comparison` (lines 201–226): word-overlap score with fixed
placeholder points.  The float expression `int((overlap / total) * 100)`
is modelled as exact natural floor division.  This is not bit-faithful:
IEEE double rounding can leave the product just below an integer, so
Python truncates one lower than the exact floor at some ratios
(overlap 29 of 100 reference words gives 28 under doubles, 29 here).
Theorems about mid-range score values therefore hold only of this
rational model; results stated about `simpleComparison` elsewhere in
this file are restricted to consequences on which the double and the
exact computation agree (the 0/50/100 endpoint values, for which the
division is exact, and upper bounds, since `overlap / total ≤ 1.0`
holds under doubles as well). -/
def simpleComparison (original_text summary_text : String) : EvalTuple :=
  let original_words := wordSet original_text
  let summary_words := wordSet summary_text
  let overlap := (original_words ∩ summary_words).card
  let total_original := original_words.card
  let accuracy_score := if 0 < total_original then min 100 (overlap * 100 / total_original) else 50
  ⟨accuracy_score,
   ["Basic content overlap detected"],
   ["Detailed analysis not available"],
   []⟩

/-- Outcome of the generative-model call as seen by `compare_texts`:
no invoker configured (`self.model is None`), the call raised, or the
call returned raw text. -/
inductive Invocation where
  | unavailable
  | failure
  | success (text : String)

/-- `compare_texts` (lines 30–57): dispatch on the invocation outcome;
unavailability and failure both fall back to `_simple_comparison`,
success hands the raw text to `_parse_comparison_response`. -/
def compareTexts (inv : Invocation) (original_text summary_text : String) : ParsedResponse :=
  match inv with
  | Invocation.unavailable => (simpleComparison original_text summary_text).toParsed
  | Invocation.failure => (simpleComparison original_text summary_text).toParsed
  | Invocation.success t => parseComparisonResponse t

/-- Whether a JSON value is a string. -/
def isStr : Json → Bool
  | Json.str _ => true
  | _ => false

/-- Whether a JSON value is a list of strings. -/
def isStrList : Json → Bool
  | Json.arr xs => xs.all isStr
  | _ => false

/-- The property the spec asserts of every returned result: the score
slot holds an integer lying in `[0, 100]`. -/
def scoreInRange (r : ParsedResponse) : Prop :=
  ∃ n : Int, r.accuracy_score = Json.num n ∧ 0 ≤ n ∧ n ≤ 100

/-- Half-up rounding of the fraction `num / den`, the reading of the
spec's `round(100 * overlap / |reference_words|)`. -/
def roundNat (num den : Nat) : Nat :=
  (2 * num + den) / (2 * den)

/-- Keyword-driven section choice as described by the scan claims: the
`correct` keywords are checked first, then the `missed` ones, then the
`wrong` ones; a keyword-free line selects no section. -/
def kwSection (line : String) : Option Sec :=
  if lowerContains line "correct" || lowerContains line "good" || lowerContains line "accurate" then
    some Sec.correct
  else if lowerContains line "missed" || lowerContains line "missing" then
    some Sec.missed
  else if lowerContains line "wrong" || lowerContains line "incorrect" || lowerContains line "error" then
    some Sec.wrong
  else none

/-- Append one bullet point to the list of the given section. -/
def appendPoint (st : ScanState) (sec : Sec) (point : String) : ScanState :=
  match sec with
  | Sec.correct =>
    ⟨st.current_section, st.correct_points ++ [point], st.missed_points, st.wrong_points⟩
  | Sec.missed =>
    ⟨st.current_section, st.correct_points, st.missed_points ++ [point], st.wrong_points⟩
  | Sec.wrong =>
    ⟨st.current_section, st.correct_points, st.missed_points, st.wrong_points ++ [point]⟩

/-- Claim-side description of one scan step: a non-empty stripped line
first undergoes keyword detection (with the fixed priority of
`kwSection`); only a keyword-free line can act as a bullet, in which
case its marker is removed and the non-empty remainder is appended to
the active section's list. -/
def specStep (st : ScanState) (line0 : String) : ScanState :=
  let line := pyStrip line0
  if line = "" then st
  else
    match kwSection line with
    | some s => ⟨some s, st.correct_points, st.missed_points, st.wrong_points⟩
    | none =>
      if bulletStart line then
        let point := pyStrip (String.mk (line.data.drop 1))
        if point = "" then st
        else
          match st.current_section with
          | some s => appendPoint st s point
          | none => st
      else st

theorem stepLine_eq_specStep (st : ScanState) (line0 : String) :
    stepLine st line0 = specStep st line0 := by
  unfold stepLine specStep kwSection appendPoint
  by_cases h0 : pyStrip line0 = ""
  · simp [h0]
  · simp only [h0, if_false, if_neg]
    by_cases h1 : (lowerContains (pyStrip line0) "correct" || lowerContains (pyStrip line0) "good" ||
        lowerContains (pyStrip line0) "accurate") = true
    · simp [h1]
    · simp only [Bool.not_eq_true] at h1
      by_cases h2 : (lowerContains (pyStrip line0) "missed" || lowerContains (pyStrip line0) "missing") = true
      · simp [h1, h2]
      · simp only [Bool.not_eq_true] at h2
        by_cases h3 : (lowerContains (pyStrip line0) "wrong" || lowerContains (pyStrip line0) "incorrect" ||
            lowerContains (pyStrip line0) "error") = true
        · simp [h1, h2, h3]
        · simp only [Bool.not_eq_true] at h3
          by_cases h4 : bulletStart (pyStrip line0) = true
          · simp only [h1, h2, h3, h4, Bool.false_eq_true, if_false, if_true, List.drop_one]
            by_cases h5 : pyStrip (String.mk (pyStrip line0).data.tail) = ""
            · simp [h5]
            · simp only [h5, ne_eq, not_false_eq_true, if_true, if_false]
              cases hsec : st.current_section with
              | none => simp
              | some s => cases s <;> simp
          · simp [h1, h2, h3, h4]

theorem isStrList_map_str (l : List String) : isStrList (Json.arr (l.map Json.str)) = true := by
  induction l with
  | nil => rfl
  | cons h t ih => simp [isStrList, isStr, List.all_map]

theorem simpleComparison_score (o s : String) :
    (simpleComparison o s).accuracy_score =
      if 0 < (wordSet o).card then
        min 100 ((wordSet o ∩ wordSet s).card * 100 / (wordSet o).card)
      else 50 := rfl

/-- C9: in the heuristic line scan, section-keyword detection takes
precedence over bullet handling with the fixed priority correct >
missed > wrong (so a line containing "incorrect" switches to the
correct section, since "correct" is a substring of it), and only a
keyword-free line is ever treated as a bullet point. -/
theorem c9_keyword_precedence (st : ScanState) (line0 : String) :
    stepLine st line0 = specStep st line0 :=
  stepLine_eq_specStep st line0

/-- C5: the orchestrating entry point never raises: with no model
invoker it returns the local overlap result, with a failed model call
it returns the local overlap result, and with returned text it hands
off to the (total) response interpreter. -/
theorem c5_orchestrator_fallback (original summary : String) :
    compareTexts Invocation.unavailable original summary =
      (simpleComparison original summary).toParsed ∧
    compareTexts Invocation.failure original summary =
      (simpleComparison original summary).toParsed ∧
    ∀ t : String, compareTexts (Invocation.success t) original summary =
      parseComparisonResponse t :=
  ⟨rfl, rfl, fun _ => rfl⟩

/-- The raw model text of the C7 round-trip example. -/
def c7raw : String :=
  "\x7b\"accuracy_score\": 82, \"correct_points\": [\"a\"], \"missed_points\": [\"b\"], \"wrong_points\": []\x7d"

/-- C7: interpreting the well-formed structured response yields exactly
score 82, correct points ["a"], missed points ["b"], and empty wrong
points, via the structured (brace-span + JSON decode) strategy. -/
theorem c7_roundtrip :
    findSpan c7raw = some c7raw ∧
    jsonDecode c7raw = some (Json.obj
      [("accuracy_score", Json.num 82), ("correct_points", Json.arr [Json.str "a"]),
       ("missed_points", Json.arr [Json.str "b"]), ("wrong_points", Json.arr [])]) ∧
    parseComparisonResponse c7raw =
      ⟨Json.num 82, Json.arr [Json.str "a"], Json.arr [Json.str "b"], Json.arr []⟩ :=
  ⟨rfl, rfl, rfl⟩

/-- C1 counterexample: a structured response with accuracy_score 140 is
passed through unclamped, so the score returned by compare_texts is not
an integer in [0,100]. -/
theorem c1_counterexample :
    ¬ scoreInRange
        (compareTexts (Invocation.success "\x7b\"accuracy_score\": 140\x7d") "ref" "cand") := by
  rintro ⟨n, hn, h0, h1⟩
  have he : Json.num 140 = Json.num n := hn
  injection he with h2
  omega

/-- C1 (amended): only the local overlap tier guarantees an integer
score in [0,100]; the structured and heuristic tiers pass the extracted
score through without clamping. -/
theorem c1_local_range (inv : Invocation) (o s : String)
    (h : inv = Invocation.unavailable ∨ inv = Invocation.failure) :
    ∃ n : Nat, (compareTexts inv o s).accuracy_score = Json.num (n : Int) ∧ n ≤ 100 := by
  have hs : (simpleComparison o s).accuracy_score ≤ 100 := by
    rw [simpleComparison_score]
    split
    · exact min_le_left _ _
    · omega
  rcases h with h | h <;> subst h <;>
    exact ⟨(simpleComparison o s).accuracy_score, rfl, hs⟩

/-- Witness for C1's amended theorem at a concrete input. -/
theorem c1_witness :
    ∃ n : Nat, (compareTexts Invocation.unavailable "alpha beta" "alpha").accuracy_score =
      Json.num (n : Int) ∧ n ≤ 100 :=
  c1_local_range Invocation.unavailable "alpha beta" "alpha" (Or.inl rfl)

/-- The decoded object of the C2 counterexample. -/
def c2obj : List (String × Json) :=
  [("accuracy_score", Json.num 140), ("correct_points", Json.arr []),
   ("missed_points", Json.arr []), ("wrong_points", Json.arr [])]

/-- C2 counterexample: the interpreter does not clamp: an object with
accuracy_score 140 yields score 140, not 100 as the claim states. -/
theorem c2_counterexample :
    (parseData c2obj).accuracy_score = Json.num 140 ∧
    (parseData c2obj).accuracy_score ≠ Json.num 100 := by
  refine ⟨rfl, ?_⟩
  intro h
  have he : Json.num 140 = Json.num 100 := h
  injection he with h2
  omega

/-- C2 (amended): the interpreter reads accuracy_score with default 0
only when the key is missing; any present value (numeric or not) is
passed through unchanged and unclamped. -/
theorem c2_amended (kvs : List (String × Json)) :
    (dictGet kvs "accuracy_score" = none → (parseData kvs).accuracy_score = Json.num 0) ∧
    ∀ v, dictGet kvs "accuracy_score" = some v → (parseData kvs).accuracy_score = v := by
  constructor
  · intro h; simp [parseData, h]
  · intro v h; simp [parseData, h]

/-- Witness for C2's amended theorem: the value 140 is passed through. -/
theorem c2_witness :
    (parseData [("accuracy_score", Json.num 140)]).accuracy_score = Json.num 140 :=
  (c2_amended [("accuracy_score", Json.num 140)]).2 (Json.num 140) rfl

/-- The decoded object of the C6 counterexample. -/
def c6obj : List (String × Json) := [("correct_points", Json.null)]

/-- C6 counterexample: a decoded object whose correct_points is null
has the null passed through: the slot is neither absent-defaulted nor a
list of strings. -/
theorem c6_counterexample :
    (parseData c6obj).correct_points = Json.null ∧
    isStrList (parseData c6obj).correct_points = false :=
  ⟨rfl, rfl⟩

/-- C6 (amended): the three point slots are always present; structured
extraction substitutes an empty list only when the key is missing and
passes any present value (even a non-list) through unchanged, while the
heuristic/local tiers always produce lists of strings. -/
theorem c6_amended (kvs : List (String × Json)) :
    ((dictGet kvs "correct_points" = none → (parseData kvs).correct_points = Json.arr []) ∧
      ∀ v, dictGet kvs "correct_points" = some v → (parseData kvs).correct_points = v) ∧
    ((dictGet kvs "missed_points" = none → (parseData kvs).missed_points = Json.arr []) ∧
      ∀ v, dictGet kvs "missed_points" = some v → (parseData kvs).missed_points = v) ∧
    ((dictGet kvs "wrong_points" = none → (parseData kvs).wrong_points = Json.arr []) ∧
      ∀ v, dictGet kvs "wrong_points" = some v → (parseData kvs).wrong_points = v) ∧
    ∀ t : EvalTuple,
      isStrList (EvalTuple.toParsed t).correct_points = true ∧
      isStrList (EvalTuple.toParsed t).missed_points = true ∧
      isStrList (EvalTuple.toParsed t).wrong_points = true := by
  refine ⟨⟨?_, ?_⟩, ⟨?_, ?_⟩, ⟨?_, ?_⟩, ?_⟩
  · intro h; simp [parseData, h]
  · intro v h; simp [parseData, h]
  · intro h; simp [parseData, h]
  · intro v h; simp [parseData, h]
  · intro h; simp [parseData, h]
  · intro v h; simp [parseData, h]
  · intro t
    exact ⟨isStrList_map_str _, isStrList_map_str _, isStrList_map_str _⟩

/-- Witness for C6's amended theorem: a present null passes through. -/
theorem c6_witness :
    (parseData [("correct_points", Json.null)]).correct_points = Json.null :=
  ((c6_amended [("correct_points", Json.null)]).1).2 Json.null rfl

/-- C4 counterexample: for reference "a b c" and candidate "a b" the
code truncates 100 * 2 / 3 to 66, while the claim's rounding formula
gives 67.  At this input the double value 66.66666666666666 and the
exact fraction 200/3 truncate to the same 66, so the counterexample
does not depend on the rational modelling of the division. -/
theorem c4_counterexample :
    (simpleComparison "a b c" "a b").accuracy_score ≠
      min 100 (roundNat ((wordSet "a b c" ∩ wordSet "a b").card * 100) (wordSet "a b c").card) := by
  decide

/-- C4 (amended): the local overlap scorer truncates (rather than
rounds) the guarded ratio `100 * overlap / |reference_words|`.  Because
the exact mid-range value depends on IEEE double rounding (which the
model does not capture — see `simpleComparison`), only the
rounding-insensitive consequences are asserted: identical non-trivial
texts score 100, disjoint vocabularies with a non-empty reference score
0, an empty reference scores 50, and the score never exceeds 100. -/
theorem c4_amended :
    (∀ t : String, 0 < (wordSet t).card → (simpleComparison t t).accuracy_score = 100) ∧
    (∀ o s : String, 0 < (wordSet o).card → wordSet o ∩ wordSet s = ∅ →
      (simpleComparison o s).accuracy_score = 0) ∧
    (∀ o s : String, (wordSet o).card = 0 → (simpleComparison o s).accuracy_score = 50) ∧
    (∀ o s : String, (simpleComparison o s).accuracy_score ≤ 100) := by
  refine ⟨?_, ?_, ?_, ?_⟩
  · intro t ht
    rw [simpleComparison_score, if_pos ht, Finset.inter_self]
    rw [Nat.mul_div_cancel_left 100 ht]
    simp
  · intro o s ho hi
    rw [simpleComparison_score, if_pos ho, hi]
    simp
  · intro o s ho
    rw [simpleComparison_score, if_neg (by omega)]
  · intro o s
    rw [simpleComparison_score]
    split
    · exact min_le_left _ _
    · omega

/-- Witness for C4's amended theorem: identical texts score 100. -/
theorem c4_witness : (simpleComparison "a b" "a b").accuracy_score = 100 :=
  c4_amended.1 "a b" (by decide)

/-- C3 counterexample: after "missed:" activates the missed section,
the bullet line "- wrong date" contains the keyword "wrong", so the
scan switches the section instead of appending the point: the claim's
unconditional bullet clause predicts a point in some list, but all
three lists stay empty. -/
theorem c3_counterexample :
    fallbackParsing "missed:\n- wrong date" = EvalTuple.mk 50 [] [] [] := by
  decide

/-- C3 (amended): the heuristic scan switches the section per the
prioritized keyword chain, and a line beginning with a bullet marker is
appended to the active section's list only when it contains no section
keyword; the claim's example behaves as stated. -/
theorem c3_amended :
    fallbackParsing "Accuracy Score: 70\nCorrect:\n- point one\nMissed:\n- point two" =
      EvalTuple.mk 70 ["point one"] ["point two"] [] ∧
    ∀ st : ScanState, ∀ line0 : String,
      kwSection (pyStrip line0) = none →
      bulletStart (pyStrip line0) = true →
      pyStrip (String.mk (pyStrip line0).data.tail) ≠ "" →
      ∀ s, st.current_section = some s →
      stepLine st line0 = appendPoint st s (pyStrip (String.mk (pyStrip line0).data.tail)) := by
  constructor
  · decide
  · intro st line0 hkw hb hp s hsec
    have h0 : pyStrip line0 ≠ "" := by
      intro h
      rw [h] at hb
      exact absurd hb (by decide)
    rw [stepLine_eq_specStep]
    simp [specStep, h0, hkw, hb, hp, hsec]

/-- Witness for C3's amended theorem: a keyword-free bullet line is
appended to the active (correct) section. -/
theorem c3_witness :
    stepLine ⟨some Sec.correct, [], [], []⟩ "- x" =
      appendPoint ⟨some Sec.correct, [], [], []⟩ Sec.correct "x" :=
  c3_amended.2 ⟨some Sec.correct, [], [], []⟩ "- x" (by decide) (by decide) (by decide)
    Sec.correct rfl

theorem stepLine_no_bullet (st : ScanState) (line0 : String)
    (h : bulletStart (pyStrip line0) = false) :
    (stepLine st line0).correct_points = st.correct_points ∧
    (stepLine st line0).missed_points = st.missed_points ∧
    (stepLine st line0).wrong_points = st.wrong_points := by
  simp only [stepLine]
  split_ifs <;> simp_all

theorem foldl_no_bullet (lines : List String) :
    ∀ st : ScanState, (∀ l ∈ lines, bulletStart (pyStrip l) = false) →
      ((lines.foldl stepLine st).correct_points = st.correct_points ∧
       (lines.foldl stepLine st).missed_points = st.missed_points ∧
       (lines.foldl stepLine st).wrong_points = st.wrong_points) := by
  induction lines with
  | nil => intro st _; exact ⟨rfl, rfl, rfl⟩
  | cons l ls ih =>
    intro st h
    have hl := h l (List.mem_cons_self l ls)
    have hrest : ∀ x ∈ ls, bulletStart (pyStrip x) = false :=
      fun x hx => h x (List.mem_cons_of_mem l hx)
    have hs := stepLine_no_bullet st l hl
    have hfold := ih (stepLine st l) hrest
    exact ⟨hfold.1.trans hs.1, hfold.2.1.trans hs.2.1, hfold.2.2.trans hs.2.2⟩

/-- C8: the response interpreter is total on its embedding, and on raw
text with no brace span, no accuracy-score pattern, and no bullet
lines, it returns score 50 with all three point lists empty. -/
theorem c8_interpreter_total (s : String)
    (hspan : findSpan s = none)
    (hscore : searchScore (lowerStr s).data = none)
    (hbul : ∀ l ∈ splitLines s, bulletStart (pyStrip l) = false) :
    parseComparisonResponse s = (EvalTuple.mk 50 [] [] []).toParsed := by
  have hfb : fallbackParsing s = EvalTuple.mk 50 [] [] [] := by
    have h := foldl_no_bullet (splitLines s) ⟨none, [], [], []⟩ hbul
    show EvalTuple.mk ((searchScore (lowerStr s).data).getD 50)
        ((splitLines s).foldl stepLine ⟨none, [], [], []⟩).correct_points
        ((splitLines s).foldl stepLine ⟨none, [], [], []⟩).missed_points
        ((splitLines s).foldl stepLine ⟨none, [], [], []⟩).wrong_points =
      EvalTuple.mk 50 [] [] []
    rw [hscore, h.1, h.2.1, h.2.2]
    rfl
  unfold parseComparisonResponse
  simp only [hspan]
  rw [hfb]

/-- Witness for C8 at fully uninterpretable concrete raw text. -/
theorem c8_witness :
    parseComparisonResponse "hello there\nsome plain text" =
      (EvalTuple.mk 50 [] [] []).toParsed :=
  c8_interpreter_total "hello there\nsome plain text" rfl rfl (by decide)

/-- C10: the intersection of the word sets is a subset of the reference
word set, so the unclamped overlap score never exceeds 100 and the
min(100, ·) guard is redundant; the empty-reference branch returns 50,
and the returned score is always at most 100. -/
theorem c10_overlap_in_range (o s : String) :
    ((wordSet o ∩ wordSet s).card ≤ (wordSet o).card) ∧
    (0 < (wordSet o).card →
      (wordSet o ∩ wordSet s).card * 100 / (wordSet o).card ≤ 100 ∧
      min 100 ((wordSet o ∩ wordSet s).card * 100 / (wordSet o).card) =
        (wordSet o ∩ wordSet s).card * 100 / (wordSet o).card) ∧
    ((wordSet o).card = 0 → (simpleComparison o s).accuracy_score = 50) ∧
    (simpleComparison o s).accuracy_score ≤ 100 := by
  have hsub : (wordSet o ∩ wordSet s).card ≤ (wordSet o).card :=
    Finset.card_le_card Finset.inter_subset_left
  refine ⟨hsub, ?_, ?_, ?_⟩
  · intro h
    have hb : (wordSet o ∩ wordSet s).card * 100 / (wordSet o).card ≤ 100 := by
      have h1 : (wordSet o ∩ wordSet s).card * 100 ≤ (wordSet o).card * 100 :=
        Nat.mul_le_mul_right 100 hsub
      have h2 : (wordSet o ∩ wordSet s).card * 100 / (wordSet o).card ≤
          (wordSet o).card * 100 / (wordSet o).card :=
        Nat.div_le_div_right h1
      have h3 : (wordSet o).card * 100 / (wordSet o).card = 100 :=
        Nat.mul_div_cancel_left 100 h
      omega
    exact ⟨hb, min_eq_right hb⟩
  · intro h
    rw [simpleComparison_score, if_neg (by omega)]
  · rw [simpleComparison_score]
    split
    · exact min_le_left _ _
    · omega

/-- Witness for C10 at concrete texts with a non-empty reference set. -/
theorem c10_witness :
    (wordSet "a b" ∩ wordSet "b").card * 100 / (wordSet "a b").card ≤ 100 :=
  ((c10_overlap_in_range "a b" "b").2.1 (by decide)).1
